import Mathlib

/-!
Verification of the OpenBSD DebuggerCore plugin and the Analyzer of
edb-debugger against its natural-language specification.

The controller model is a shallow embedding of
`plugins/DebuggerCore/unix/openbsd/DebuggerCore.cpp`: the mutable object
state (`pid_`, `active_thread_`, `threads_`) becomes a record that each
operation transforms, OS nondeterminism (fork / waitpid / ptrace results)
is passed in as explicit parameters, and every issued ptrace opcode is
collected into an output trace so that theorems can speak about which
opcodes an operation performs.
-/

set_option maxHeartbeats 1000000

namespace Edb

/- ===== wait(2) status decoding, OpenBSD <sys/wait.h> ===== -/

/-- Low 7 bits of a raw wait status (`_WSTATUS(x) = x & 0177`). -/
def WSTATUS (x : Nat) : Nat := x % 128

/-- WIFSTOPPED(x): the status denotes a stopped process (`_WSTATUS == 0177`). -/
def WIFSTOPPED (x : Nat) : Bool := WSTATUS x == 127

/-- WIFSIGNALED(x): terminated by a signal (`_WSTATUS != 0177 && _WSTATUS != 0`). -/
def WIFSIGNALED (x : Nat) : Bool := (WSTATUS x != 127) && (WSTATUS x != 0)

/-- WIFEXITED(x): exited normally (`_WSTATUS == 0`). -/
def WIFEXITED (x : Nat) : Bool := WSTATUS x == 0

/-- WSTOPSIG(x): the stopping signal (`x >> 8`). -/
def WSTOPSIG (x : Nat) : Nat := x / 256

/-- WTERMSIG(x): the terminating signal (`_WSTATUS(x)`). -/
def WTERMSIG (x : Nat) : Nat := WSTATUS x

/-- Signal number of SIGTRAP on OpenBSD. -/
def SIGTRAP : Nat := 5

/-- Signal number of SIGSTOP on OpenBSD. -/
def SIGSTOP : Nat := 17

/-- The anonymous-namespace helper `resume_code` of DebuggerCore.cpp:
signal code re-injected on resume, derived from a raw wait status. -/
def resume_code (status : Nat) : Nat :=
  if WIFSIGNALED status then
    WTERMSIG status
  else if WIFSTOPPED status then
    WSTOPSIG status
  else
    0

/- ===== QMap model =====

`threads_` in the source is a `QMap<edb::tid_t, thread_info>`: an ordered
map.  We model it as an association list sorted by key.  `thread_info`
(declared in the plugin header) carries only the last raw wait status
used by this translation unit, so the value type is the raw status. -/

/-- Lookup in the association-list model of `QMap`. -/
def qlookup {α : Type} : List (Nat × α) → Nat → Option α
  | [], _ => none
  | (k, v) :: rest, t => if k = t then some v else qlookup rest t

/-- Ordered insert/replace, the model of `QMap::insert` and of assignment
through `QMap::operator[]`. -/
def qinsert {α : Type} : List (Nat × α) → Nat → α → List (Nat × α)
  | [], k, v => [(k, v)]
  | (k', v') :: rest, k, v =>
    if k < k' then (k, v) :: (k', v') :: rest
    else if k = k' then (k, v) :: rest
    else (k', v') :: qinsert rest k v

/- ===== ptrace surface ===== -/

/-- The ptrace opcodes issued by DebuggerCore.cpp. -/
inductive PtraceOp : Type
  | PT_ATTACH
  | PT_DETACH
  | PT_KILL
  | PT_CONTINUE
  | PT_STEP
  | PT_GETREGS
  | PT_SETREGS
  | PT_GETFPREGS
  | PT_SETFPREGS
  | PT_READ_D
  | PT_WRITE_D
  | PT_TRACE_ME
deriving DecidableEq, Repr

/-- One issued ptrace call: opcode, target tid, and the `data` argument
(the signal code for PT_CONTINUE / PT_STEP; 0 where irrelevant). -/
structure PtraceCall : Type where
  op : PtraceOp
  tid : Nat
  data : Nat
deriving DecidableEq, Repr

/-- The `edb::EVENT_STATUS` dispositions consumed by resume/step
(spec names: Stop, Continue, PassSignal). -/
inductive EVENT_STATUS : Type
  | DEBUG_STOP
  | DEBUG_CONTINUE
  | DEBUG_EXCEPTION_NOT_HANDLED
deriving DecidableEq, Repr

/-- Modelled from the spec: class `DebugEvent` (its header is not among the
provided sources).  Constructed as `DebugEvent(status, pid, tid)`; per the
spec every event carries the originating pid and the reporting tid, and
`thread()` returns the reporting tid. -/
structure DebugEvent : Type where
  status : Nat
  pid : Nat
  tid : Nat
deriving DecidableEq, Repr

/-- Accessor `DebugEvent::thread()`: the reporting tid. -/
def DebugEvent.thread (e : DebugEvent) : Nat := e.tid

/- ===== the controller state ===== -/

/-- The mutable state of class `DebuggerCore` used by this translation
unit: the owned pid (0 when detached), the active thread id, and the
thread registry.  `pid_` and `active_thread_` live in the base class whose
header is not among the provided sources; per the spec the controller is
an owning container of one Pid, with pid 0 meaning detached. -/
structure DebuggerCore : Type where
  pid_ : Nat
  active_thread_ : Nat
  threads_ : List (Nat × Nat)
deriving DecidableEq, Repr

/-- Modelled from the spec: `attached()` (defined in the base-class header,
not among the provided sources) — the controller owns a process exactly
when its stored pid is non-zero. -/
def DebuggerCore.attached (s : DebuggerCore) : Bool := s.pid_ != 0

/-- `DebuggerCore::detach()`: when attached, clear breakpoints
(collaborator, no controller state), issue PT_DETACH on the owned pid,
zero the pid and clear the thread registry. -/
def DebuggerCore.detach (s : DebuggerCore) : DebuggerCore × List PtraceCall :=
  if s.attached then
    ({ s with pid_ := 0, threads_ := [] }, [⟨PtraceOp.PT_DETACH, s.pid_, 0⟩])
  else
    (s, [])

/-- `DebuggerCore::kill()`: when attached, issue PT_KILL, reap the zombie
with a blocking wait (no controller state), zero the pid and clear the
registry. -/
def DebuggerCore.kill (s : DebuggerCore) : DebuggerCore × List PtraceCall :=
  if s.attached then
    ({ s with pid_ := 0, threads_ := [] }, [⟨PtraceOp.PT_KILL, s.pid_, 0⟩])
  else
    (s, [])

/-- `DebuggerCore::attach(pid)`: unconditionally `detach()` first, then
issue PT_ATTACH; on OS success adopt the pid, make it the active thread
and make it the sole registry entry (`thread_info()` value-initialises the
stored status to 0).  `ptraceOk` is the OS result of the PT_ATTACH call.
Returns (state, success, issued ptrace calls). -/
def DebuggerCore.attach (s : DebuggerCore) (pid : Nat) (ptraceOk : Bool) :
    DebuggerCore × Bool × List PtraceCall :=
  let d := s.detach
  let calls := d.2 ++ [⟨PtraceOp.PT_ATTACH, pid, 0⟩]
  if ptraceOk then
    ({ pid_ := pid, active_thread_ := pid, threads_ := qinsert [] pid 0 }, true, calls)
  else
    (d.1, false, calls)

/-- Result of `native::waitpid_timeout` as seen by `wait_debug_event`:
either the timeout flag was set, or a (tid, raw status) pair came back
(tid ≤ 0 encodes a wait failure). -/
inductive WaitRes : Type
  | timeout
  | res (tid : Int) (status : Nat)
deriving DecidableEq, Repr

/-- `DebuggerCore::wait_debug_event(event, msecs)`: when attached and the
timed wait reports a positive tid, build the DebugEvent, make the tid the
active thread and store the raw status for it in the registry (inserting
the tid when unknown); otherwise change nothing and report no event. -/
def DebuggerCore.wait_debug_event (s : DebuggerCore) (w : WaitRes) :
    DebuggerCore × Option DebugEvent :=
  if s.attached then
    match w with
    | WaitRes.timeout => (s, none)
    | WaitRes.res tid status =>
      if 0 < tid then
        let event : DebugEvent := ⟨status, s.pid_, tid.toNat⟩
        ({ s with active_thread_ := event.thread,
                  threads_ := qinsert s.threads_ tid.toNat status },
         some event)
      else
        (s, none)
  else
    (s, none)

/-- `DebuggerCore::resume(status)`: nothing unless attached; nothing for
DEBUG_STOP; otherwise one PT_CONTINUE on the active thread whose signal
code is 0 for DEBUG_CONTINUE and `resume_code` of the stored raw status
for DEBUG_EXCEPTION_NOT_HANDLED (`threads_[tid]` default-inserts a
value-initialised entry when the active tid is unknown, as
`QMap::operator[]` does). -/
def DebuggerCore.resume (s : DebuggerCore) (status : EVENT_STATUS) :
    DebuggerCore × List PtraceCall :=
  if s.attached then
    match status with
    | EVENT_STATUS.DEBUG_STOP => (s, [])
    | EVENT_STATUS.DEBUG_CONTINUE =>
      (s, [⟨PtraceOp.PT_CONTINUE, s.active_thread_, 0⟩])
    | EVENT_STATUS.DEBUG_EXCEPTION_NOT_HANDLED =>
      let tid := s.active_thread_
      let st := (qlookup s.threads_ tid).getD 0
      ({ s with threads_ := qinsert s.threads_ tid st },
       [⟨PtraceOp.PT_CONTINUE, tid, resume_code st⟩])
  else
    (s, [])

/-- `DebuggerCore::step(status)`: identical to resume but issuing
PT_STEP. -/
def DebuggerCore.step (s : DebuggerCore) (status : EVENT_STATUS) :
    DebuggerCore × List PtraceCall :=
  if s.attached then
    match status with
    | EVENT_STATUS.DEBUG_STOP => (s, [])
    | EVENT_STATUS.DEBUG_CONTINUE =>
      (s, [⟨PtraceOp.PT_STEP, s.active_thread_, 0⟩])
    | EVENT_STATUS.DEBUG_EXCEPTION_NOT_HANDLED =>
      let tid := s.active_thread_
      let st := (qlookup s.threads_ tid).getD 0
      ({ s with threads_ := qinsert s.threads_ tid st },
       [⟨PtraceOp.PT_STEP, tid, resume_code st⟩])
  else
    (s, [])

/-- `DebuggerCore::pause()`: when attached, send one SIGSTOP per
registered tid (via kill(2), not ptrace); returns the (tid, signal)
sends. -/
def DebuggerCore.pause (s : DebuggerCore) : List (Nat × Nat) :=
  if s.attached then
    s.threads_.map (fun p => (p.1, SIGSTOP))
  else
    []

/-- `DebuggerCore::open(path, cwd, args, tty)`: `detach()` first; on fork
failure zero the pid and fail.  In the parent, clear the registry and
block in waitpid; on wait failure fail; if the first event is not a stop
with signal SIGTRAP, `detach()` and fail; otherwise register the child as
the sole registry entry, store the first raw status for it, adopt the pid
and make it active.  `forkRes` is the fork result (none = fork failed),
`waitRes` the blocking waitpid result (none = waitpid returned -1). -/
def DebuggerCore.open_ (s : DebuggerCore) (forkRes : Option Nat)
    (waitRes : Option Nat) : DebuggerCore × Bool :=
  let s0 := (s.detach).1
  match forkRes with
  | none => ({ s0 with pid_ := 0 }, false)
  | some pid =>
    let s1 := { s0 with threads_ := [] }
    match waitRes with
    | none => (s1, false)
    | some status =>
      if WIFSTOPPED status = false ∨ WSTOPSIG status ≠ SIGTRAP then
        ((s1.detach).1, false)
      else
        ({ pid_ := pid, active_thread_ := pid,
           threads_ := qinsert (qinsert s1.threads_ pid 0) pid status }, true)

/-- Modelled from the spec: the run states of the §4.E state machine are
not reified in the source; the controller is in the AttachedStopped state
when it is attached and the last stored raw status of its active thread is
a stop. -/
def DebuggerCore.attachedStopped (s : DebuggerCore) : Bool :=
  s.attached &&
    (match qlookup s.threads_ s.active_thread_ with
     | some st => WIFSTOPPED st
     | none => false)

/- ===== registers (get_state / set_state) =====

`PlatformState` holds the raw general-purpose bank `regs_`, the segment
bases `gs_base`/`fs_base`, and the raw floating-point bank `fpregs_`; the
two register banks are whole-bank blobs copied through ptrace, modelled as
opaque numeric values. -/

/-- The register snapshot `PlatformState` behind the `State` facade:
general-purpose bank, segment bases, floating-point bank. -/
structure PlatformState : Type where
  regs_ : Nat
  gs_base : Nat
  fs_base : Nat
  fpregs_ : Nat
deriving DecidableEq, Repr

/-- `State::clear()`: the zeroed snapshot. -/
def PlatformState.clear : PlatformState := ⟨0, 0, 0, 0⟩

/-- The debuggee-side register file that ptrace GET/SET operate on. -/
structure Machine : Type where
  regs : Nat
  fpregs : Nat
deriving DecidableEq, Repr

/-- `DebuggerCore::get_state(state)`: when attached, PT_GETREGS fills the
general-purpose bank and on its success the segment bases are zeroed
(marked TODO in the source), then PT_GETFPREGS fills the floating-point
bank; either ptrace failure leaves the corresponding part of the
caller-supplied out-snapshot `prev` untouched.  When detached the
snapshot is cleared.  `okRegs` / `okFp` are the OS results of the two
ptrace calls. -/
def DebuggerCore.get_state (s : DebuggerCore) (m : Machine)
    (prev : PlatformState) (okRegs okFp : Bool) :
    PlatformState × List PtraceCall :=
  if s.attached then
    let st1 := if okRegs then
        { prev with regs_ := m.regs, gs_base := 0, fs_base := 0 }
      else prev
    let st2 := if okFp then { st1 with fpregs_ := m.fpregs } else st1
    (st2, [⟨PtraceOp.PT_GETREGS, s.active_thread_, 0⟩,
           ⟨PtraceOp.PT_GETFPREGS, s.active_thread_, 0⟩])
  else
    (PlatformState.clear, [])

/-- `DebuggerCore::set_state(state)`: when attached, a single PT_SETREGS
writes the general-purpose bank; the floating-point bank and the debug
registers are explicitly left as TODO in the source, so no PT_SETFPREGS
is issued and the machine's floating-point bank is untouched. -/
def DebuggerCore.set_state (s : DebuggerCore) (m : Machine)
    (st : PlatformState) : Machine × List PtraceCall :=
  if s.attached then
    ({ m with regs := st.regs_ }, [⟨PtraceOp.PT_SETREGS, s.active_thread_, 0⟩])
  else
    (m, [])

/- ===== parent_pid ===== -/

/-- One `struct kinfo_proc` record as used by `parent_pid`. -/
structure KInfoProc : Type where
  p_pid : Nat
  p_ppid : Nat
deriving DecidableEq, Repr

/-- Outcome of a computation that may read through a null pointer. -/
inductive Deref (α : Type) : Type
  | ok (a : α)
  | nullDeref
deriving DecidableEq, Repr

/-- `DebuggerCore::parent_pid(pid)`: `ret = 0`; when `kvm_openfiles`
succeeds, the `kvm_getprocs` result is read through unconditionally
(`ret = proc->p_ppid`) — there is no null / zero-process check, so a null
query result is dereferenced.  `kdOpenOk` is the `kvm_openfiles` result
and `kvmQuery` the `kvm_getprocs` result (none = null, i.e. zero
processes matched). -/
def parent_pid (kdOpenOk : Bool) (kvmQuery : Option KInfoProc) : Deref Nat :=
  let ret : Nat := 0
  if kdOpenOk then
    match kvmQuery with
    | some proc => Deref.ok proc.p_ppid
    | none => Deref.nullDeref
  else
    Deref.ok ret

/- ===== Analyzer =====

Only the header `plugins/Analyzer/Analyzer.h` is among the provided
sources; the bodies of `fix_overlaps` and `analyze` are modelled from the
spec (§4.J, §4.K). -/

/-- Function categorisation (`Function::type`). -/
inductive FunctionType : Type
  | Standard
  | Thunk
  | Unknown
deriving DecidableEq, Repr

/-- One discovered function: entry address, one-past-the-end address,
type, and incoming-reference count. -/
structure Function : Type where
  entry : Nat
  end_ : Nat
  type : FunctionType
  references_in : Nat
deriving DecidableEq, Repr

/-- Modelled from the spec (§4.J): the entries of later functions that
force `f` to be truncated — every g after f whose entry lies strictly
inside f's extent, except thunks entirely contained in f. -/
def truncators (f : Function) (fs : List Function) : List Nat :=
  (fs.filter (fun g =>
    decide (f.entry < g.entry ∧ g.entry < f.end_ ∧
      ¬(g.type = FunctionType.Thunk ∧ g.end_ ≤ f.end_)))).map
    Function.entry

/-- Modelled from the spec (§4.J): the resolved end of `f` — its original
end truncated to every forcing entry. -/
def newEnd (f : Function) (fs : List Function) : Nat :=
  (truncators f fs).foldr min f.end_

/-- Modelled from the spec (§4.J): `Analyzer::fix_overlaps` (body not
among the provided sources).  A pass over the map ordered by entry that,
for any pair F1 < F2 with F1.end > F2.entry, keeps both when F2 is a
thunk entirely contained in F1 and otherwise truncates F1.end to
F2.entry; entries are never removed. -/
def fix_overlaps (fs : List Function) : List Function :=
  fs.map (fun f => { f with end_ := newEnd f fs })

/-- One cache entry `Analyzer::RegionInfo`: the cached function map, the
region fingerprint, and the fuzzy flag. -/
structure RegionInfo : Type where
  analysis : List Function
  md5 : Nat
  fuzzy : Bool
deriving DecidableEq, Repr

/-- Modelled from the spec (§4.G): `Analyzer::md5_region` — a
deterministic content fingerprint of the region's byte image (MD5 is used
solely as a content-addressed key, so any deterministic fingerprint is
faithful). -/
def md5_region (bytes : List Nat) : Nat :=
  bytes.foldl (fun h b => (h * 31 + b + 1) % (2 ^ 128)) 0

/-- Modelled from the spec (§4.K): `Analyzer::analyze` (body not among
the provided sources).  Compute the current fingerprint; on a cache hit
whose stored fingerprint matches and whose fuzzy flag is clear, return
the cached map unchanged (hit = true); otherwise run the full analysis
`A` on the bytes, record it with fuzzy = `running` (debuggee not
quiescent), overwrite the cache entry and return the fresh map
(hit = false).  Result: (function map, hit, new cache). -/
def analyze (A : List Nat → List Function)
    (cache : List (Nat × RegionInfo)) (regionStart : Nat)
    (bytes : List Nat) (running : Bool) :
    List Function × Bool × List (Nat × RegionInfo) :=
  let m := md5_region bytes
  match qlookup cache regionStart with
  | some info =>
    if info.md5 = m ∧ info.fuzzy = false then
      (info.analysis, true, cache)
    else
      let fm := A bytes
      (fm, false, qinsert cache regionStart ⟨fm, m, running⟩)
  | none =>
    let fm := A bytes
    (fm, false, qinsert cache regionStart ⟨fm, m, running⟩)

/-- The spec's overlap-resolution scenario: F1 = [0x1000, 0x1040) of type
Standard and the thunk F2 = [0x1020, 0x1030) entirely contained in it. -/
def overlapScenario : List Function :=
  [⟨4096, 4160, FunctionType.Standard, 0⟩,
   ⟨4128, 4144, FunctionType.Thunk, 0⟩]

/- ===== helper lemmas ===== -/

theorem qlookup_qinsert_self {α : Type} (m : List (Nat × α)) (k : Nat) (v : α) :
    qlookup (qinsert m k v) k = some v := by
  induction m with
  | nil => simp [qinsert, qlookup]
  | cons hd tl ih =>
    obtain ⟨k', v'⟩ := hd
    by_cases h1 : k < k'
    · simp [qinsert, h1, qlookup]
    · by_cases h2 : k = k'
      · simp [qinsert, h1, h2, qlookup]
      · have hne : k' ≠ k := fun h => h2 h.symm
        simp [qinsert, h1, h2, qlookup, hne, ih]

theorem qlookup_qinsert_ne {α : Type} (m : List (Nat × α)) (k t : Nat) (v : α)
    (h : t ≠ k) : qlookup (qinsert m k v) t = qlookup m t := by
  induction m with
  | nil => simp [qinsert, qlookup, Ne.symm h]
  | cons hd tl ih =>
    obtain ⟨k', v'⟩ := hd
    by_cases h1 : k < k'
    · simp [qinsert, h1, qlookup, Ne.symm h]
    · by_cases h2 : k = k'
      · subst h2
        simp [qinsert, h1, qlookup, Ne.symm h]
      · simp [qinsert, h1, h2, qlookup, ih]

theorem detach_of_pid_zero (s : DebuggerCore) (h : s.pid_ = 0) :
    s.detach = (s, []) := by
  have h' : s.attached = false := by simp [DebuggerCore.attached, h]
  simp [DebuggerCore.detach, h']

theorem detach_fst_pid (s : DebuggerCore) : (s.detach).1.pid_ = 0 := by
  by_cases h : s.attached = true
  · simp [DebuggerCore.detach, h]
  · have h' : s.attached = false := by simpa using h
    have hp : s.pid_ = 0 := by simpa [DebuggerCore.attached] using h'
    simp [DebuggerCore.detach, h', hp]

theorem detach_fst_threads (s : DebuggerCore)
    (hinv : s.pid_ = 0 → s.threads_ = []) : (s.detach).1.threads_ = [] := by
  by_cases h : s.attached = true
  · simp [DebuggerCore.detach, h]
  · have h' : s.attached = false := by simpa using h
    have hp : s.pid_ = 0 := by simpa [DebuggerCore.attached] using h'
    simp [DebuggerCore.detach, h', hinv hp]

/- ===== C1 ===== -/

/-- C1: `open` succeeds iff the fork succeeds, the parent's blocking wait
succeeds, and the first raw status is a stop (WIFSTOPPED) with stop
signal SIGTRAP; on success the controller is AttachedStopped, the active
thread equals the spawned pid and the registry holds exactly one entry —
that pid with the first raw status; on fork failure, wait failure or any
other first event, `open` fails and the controller is detached with an
empty registry. -/
theorem open_spec (s : DebuggerCore) (forkRes waitRes : Option Nat)
    (hinv : s.pid_ = 0 → s.threads_ = [])
    (hfork : ∀ p, forkRes = some p → 0 < p) :
    ((s.open_ forkRes waitRes).2 = true ↔
      ∃ p st, forkRes = some p ∧ waitRes = some st ∧
        WIFSTOPPED st = true ∧ WSTOPSIG st = SIGTRAP)
  ∧ (∀ p st, forkRes = some p → waitRes = some st →
      (s.open_ forkRes waitRes).2 = true →
      (s.open_ forkRes waitRes).1.attachedStopped = true
    ∧ (s.open_ forkRes waitRes).1.pid_ = p
    ∧ (s.open_ forkRes waitRes).1.active_thread_ = p
    ∧ (s.open_ forkRes waitRes).1.threads_ = [(p, st)])
  ∧ ((s.open_ forkRes waitRes).2 = false →
      (s.open_ forkRes waitRes).1.pid_ = 0
    ∧ (s.open_ forkRes waitRes).1.threads_ = []) := by
  have hd1 := detach_fst_pid s
  have hd2 := detach_fst_threads s hinv
  cases forkRes with
  | none =>
    refine ⟨by simp [DebuggerCore.open_], ?_, ?_⟩
    · intro p st hp
      exact absurd hp (by simp)
    · intro _
      exact ⟨rfl, hd2⟩
  | some p =>
    have hppos : 0 < p := hfork p rfl
    cases waitRes with
    | none =>
      refine ⟨by simp [DebuggerCore.open_], ?_, ?_⟩
      · intro p' st _ hst
        exact absurd hst (by simp)
      · intro _
        exact ⟨hd1, rfl⟩
    | some st =>
      by_cases hC : WIFSTOPPED st = false ∨ WSTOPSIG st ≠ SIGTRAP
      · have hres : s.open_ (some p) (some st)
            = ((({ (s.detach).1 with threads_ := [] } :
                DebuggerCore).detach).1, false) := by
          simp only [DebuggerCore.open_]
          rw [if_pos hC]
        have hpz : ({ (s.detach).1 with threads_ := [] } :
            DebuggerCore).pid_ = 0 := hd1
        have hdet := detach_of_pid_zero _ hpz
        refine ⟨?_, ?_, ?_⟩
        · rw [hres]
          constructor
          · intro habs
            exact absurd habs (by simp)
          · rintro ⟨p', st', hp', hst', hw2, htrap2⟩
            obtain rfl : st' = st := by injection hst' with h; exact h.symm
            rcases hC with h | h
            · rw [hw2] at h
              simp at h
            · exact absurd htrap2 h
        · intro p' st' hp' hst' habs
          rw [hres] at habs
          simp at habs
        · intro _
          rw [hres, hdet]
          exact ⟨hd1, rfl⟩
      · have hw : WIFSTOPPED st = true := by
          rcases Bool.eq_false_or_eq_true (WIFSTOPPED st) with h | h
          · exact h
          · exact absurd (Or.inl h) hC
        have htrap : WSTOPSIG st = SIGTRAP := by
          by_contra h
          exact hC (Or.inr h)
        have hres : s.open_ (some p) (some st)
            = ({ pid_ := p, active_thread_ := p,
                 threads_ := qinsert (qinsert [] p 0) p st }, true) := by
          simp only [DebuggerCore.open_]
          rw [if_neg hC]
        have hq : qinsert (qinsert ([] : List (Nat × Nat)) p 0) p st
            = [(p, st)] := by
          simp [qinsert]
        refine ⟨?_, ?_, ?_⟩
        · rw [hres]
          exact ⟨fun _ => ⟨p, st, rfl, rfl, hw, htrap⟩, fun _ => rfl⟩
        · intro p' st' hp' hst' _
          obtain rfl : p' = p := by injection hp' with h; exact h.symm
          obtain rfl : st' = st := by injection hst' with h; exact h.symm
          rw [hres]
          refine ⟨?_, rfl, rfl, hq⟩
          simp [DebuggerCore.attachedStopped, DebuggerCore.attached, hq,
            qlookup, hw, Nat.pos_iff_ne_zero.mp hppos]
        · intro habs
          rw [hres] at habs
          simp at habs

/-- C1 witness: spawning pid 42 whose first event is the raw status 1407
(a SIGTRAP stop: 1407 mod 128 = 127 and 1407 / 256 = 5) succeeds from the
empty detached controller and yields the one-entry registry. -/
theorem open_spec_witness :
    ((DebuggerCore.mk 0 0 []).open_ (some 42) (some 1407)).2 = true
  ∧ ((DebuggerCore.mk 0 0 []).open_ (some 42) (some 1407)).1.attachedStopped
      = true
  ∧ ((DebuggerCore.mk 0 0 []).open_ (some 42) (some 1407)).1.threads_
      = [(42, 1407)] := by
  have h := open_spec (DebuggerCore.mk 0 0 []) (some 42) (some 1407)
    (by intro _; rfl)
    (by intro p hp; injection hp with h; omega)
  have h2 := (h.2.1 42 1407 rfl rfl) (by decide)
  exact ⟨by decide, h2.1, h2.2.2.2⟩

/- ===== C2 ===== -/

/-- C2: on every attached controller, resume(Stop)/step(Stop) are no-ops
that issue no ptrace opcode and leave the state unchanged;
resume(Continue)/step(Continue) issue exactly one
PT_CONTINUE/PT_STEP on the active thread with signal code 0, changing
nothing; resume(PassSignal)/step(PassSignal) issue exactly one such
opcode whose signal code is `resume_code` of the active thread's stored
raw status (WTERMSIG if WIFSIGNALED, else WSTOPSIG if WIFSTOPPED, else
0).  Every issued opcode targets only the active thread. -/
theorem resume_step_spec (s : DebuggerCore) (h : s.attached = true) :
    s.resume EVENT_STATUS.DEBUG_STOP = (s, [])
  ∧ s.step EVENT_STATUS.DEBUG_STOP = (s, [])
  ∧ s.resume EVENT_STATUS.DEBUG_CONTINUE =
      (s, [⟨PtraceOp.PT_CONTINUE, s.active_thread_, 0⟩])
  ∧ s.step EVENT_STATUS.DEBUG_CONTINUE =
      (s, [⟨PtraceOp.PT_STEP, s.active_thread_, 0⟩])
  ∧ (s.resume EVENT_STATUS.DEBUG_EXCEPTION_NOT_HANDLED).2 =
      [⟨PtraceOp.PT_CONTINUE, s.active_thread_,
        resume_code ((qlookup s.threads_ s.active_thread_).getD 0)⟩]
  ∧ (s.step EVENT_STATUS.DEBUG_EXCEPTION_NOT_HANDLED).2 =
      [⟨PtraceOp.PT_STEP, s.active_thread_,
        resume_code ((qlookup s.threads_ s.active_thread_).getD 0)⟩] := by
  refine ⟨?_, ?_, ?_, ?_, ?_, ?_⟩ <;>
    simp [DebuggerCore.resume, DebuggerCore.step, h]

/-- C2 witness: on the controller attached to pid 7 whose active thread 7
stopped with raw status 1407 (a SIGTRAP stop), resume(Stop) is a no-op
and resume(PassSignal) issues PT_CONTINUE on thread 7 with signal code 5
(= WSTOPSIG 1407). -/
theorem resume_step_spec_witness :
    (DebuggerCore.mk 7 7 [(7, 1407)]).resume EVENT_STATUS.DEBUG_STOP
      = (DebuggerCore.mk 7 7 [(7, 1407)], [])
  ∧ ((DebuggerCore.mk 7 7 [(7, 1407)]).resume
      EVENT_STATUS.DEBUG_EXCEPTION_NOT_HANDLED).2
      = [⟨PtraceOp.PT_CONTINUE, 7, 5⟩] := by
  have h := resume_step_spec (DebuggerCore.mk 7 7 [(7, 1407)]) (by decide)
  refine ⟨h.1, ?_⟩
  rw [h.2.2.2.2.1]
  decide

/- ===== C3 ===== -/

/-- C3 counterexample: on an attached controller with the machine's
floating-point bank holding 1, writing the snapshot ⟨2, 3, 4, 5⟩ via
set_state and reading it back via get_state yields floating-point state
1, not the snapshot's 5 — because set_state issues only PT_SETREGS and no
PT_SETFPREGS — so the round trip fails on a field the host exposes that
is not a segment base. -/
theorem set_get_state_counterexample :
    ((DebuggerCore.mk 7 7 [(7, 1407)]).get_state
        ((DebuggerCore.mk 7 7 [(7, 1407)]).set_state ⟨0, 1⟩ ⟨2, 3, 4, 5⟩).1
        ⟨0, 0, 0, 0⟩ true true).1.fpregs_
      ≠ (PlatformState.mk 2 3 4 5).fpregs_
  ∧ ((DebuggerCore.mk 7 7 [(7, 1407)]).set_state ⟨0, 1⟩ ⟨2, 3, 4, 5⟩).2
      = [⟨PtraceOp.PT_SETREGS, 7, 0⟩] := by
  decide

/-- C3 (amended): set_state writes only the general-purpose bank — it
issues exactly one PT_SETREGS and no PT_SETFPREGS (the floating-point and
debug-register writes are TODO in the source) — so set_state followed by
get_state returns the snapshot's general-purpose bank, reads the segment
bases back as 0, and reads the floating-point bank back from the machine
rather than from the snapshot. -/
theorem set_get_state_spec (s : DebuggerCore) (h : s.attached = true)
    (m : Machine) (snap prev : PlatformState) :
    ((s.get_state (s.set_state m snap).1 prev true true).1 =
      ⟨snap.regs_, 0, 0, m.fpregs⟩)
  ∧ (s.set_state m snap).2 = [⟨PtraceOp.PT_SETREGS, s.active_thread_, 0⟩]
  ∧ (s.set_state m snap).1.fpregs = m.fpregs := by
  refine ⟨?_, ?_, ?_⟩ <;>
    simp [DebuggerCore.get_state, DebuggerCore.set_state, h]

/-- C3 witness: the amended round trip at an attached controller with
machine ⟨0, 1⟩ and snapshot ⟨2, 3, 4, 5⟩. -/
theorem set_get_state_spec_witness :
    ((DebuggerCore.mk 7 7 [(7, 1407)]).get_state
        ((DebuggerCore.mk 7 7 [(7, 1407)]).set_state ⟨0, 1⟩ ⟨2, 3, 4, 5⟩).1
        ⟨9, 9, 9, 9⟩ true true).1 = ⟨2, 0, 0, 1⟩
  ∧ ((DebuggerCore.mk 7 7 [(7, 1407)]).set_state ⟨0, 1⟩ ⟨2, 3, 4, 5⟩).2
      = [⟨PtraceOp.PT_SETREGS, 7, 0⟩]
  ∧ ((DebuggerCore.mk 7 7 [(7, 1407)]).set_state ⟨0, 1⟩ ⟨2, 3, 4, 5⟩).1.fpregs
      = (Machine.mk 0 1).fpregs :=
  set_get_state_spec (DebuggerCore.mk 7 7 [(7, 1407)]) (by decide)
    ⟨0, 1⟩ ⟨2, 3, 4, 5⟩ ⟨9, 9, 9, 9⟩

/- ===== C4 ===== -/

/-- C4 counterexample: on the concrete detached controller, resume, step,
pause and set_state perform nothing and report nothing — no ptrace call,
no state change, and their result carries no error value at all (the
source functions return void) — and get_state returns the zeroed
snapshot; this contradicts the claim that these operations signal an
error such as NotAttached instead of silently doing nothing. -/
theorem detached_ops_counterexample :
    (DebuggerCore.mk 0 0 []).resume EVENT_STATUS.DEBUG_CONTINUE
      = (DebuggerCore.mk 0 0 [], [])
  ∧ (DebuggerCore.mk 0 0 []).step EVENT_STATUS.DEBUG_CONTINUE
      = (DebuggerCore.mk 0 0 [], [])
  ∧ (DebuggerCore.mk 0 0 []).pause = []
  ∧ (DebuggerCore.mk 0 0 []).set_state ⟨3, 4⟩ ⟨1, 2, 3, 4⟩ = (⟨3, 4⟩, [])
  ∧ ((DebuggerCore.mk 0 0 []).get_state ⟨3, 4⟩ ⟨1, 2, 3, 4⟩ true true).1
      = PlatformState.clear := by
  decide

/-- C4 (amended): in the Detached state resume, step, pause and set_state
are silent no-ops — no ptrace opcode is issued, controller and machine
state are unchanged, and no error is reported to the caller (the
operations have no error channel) — while get_state clears the caller's
snapshot to zero instead of reporting an error. -/
theorem detached_ops_noop (s : DebuggerCore) (h : s.attached = false)
    (est : EVENT_STATUS) (m : Machine) (snap prev : PlatformState)
    (okRegs okFp : Bool) :
    s.resume est = (s, [])
  ∧ s.step est = (s, [])
  ∧ s.pause = []
  ∧ s.set_state m snap = (m, [])
  ∧ s.get_state m prev okRegs okFp = (PlatformState.clear, []) := by
  refine ⟨?_, ?_, ?_, ?_, ?_⟩ <;>
    simp [DebuggerCore.resume, DebuggerCore.step, DebuggerCore.pause,
      DebuggerCore.set_state, DebuggerCore.get_state, h]

/-- C4 witness: the amended no-op behaviour at the empty detached
controller with disposition Continue. -/
theorem detached_ops_noop_witness :
    (DebuggerCore.mk 0 0 []).resume EVENT_STATUS.DEBUG_CONTINUE
      = (DebuggerCore.mk 0 0 [], [])
  ∧ (DebuggerCore.mk 0 0 []).step EVENT_STATUS.DEBUG_CONTINUE
      = (DebuggerCore.mk 0 0 [], [])
  ∧ (DebuggerCore.mk 0 0 []).pause = []
  ∧ (DebuggerCore.mk 0 0 []).set_state ⟨3, 4⟩ ⟨1, 2, 3, 4⟩ = (⟨3, 4⟩, [])
  ∧ (DebuggerCore.mk 0 0 []).get_state ⟨3, 4⟩ ⟨1, 2, 3, 4⟩ false true
      = (PlatformState.clear, []) :=
  detached_ops_noop (DebuggerCore.mk 0 0 []) (by decide)
    EVENT_STATUS.DEBUG_CONTINUE ⟨3, 4⟩ ⟨1, 2, 3, 4⟩ ⟨1, 2, 3, 4⟩ false true

/- ===== C5 ===== -/

/-- C5 counterexample: on a controller already attached to pid 5, attach
to pid 7 does not fail with AlreadyAttached and does not leave the
existing attachment unchanged: it first detaches pid 5 (issuing
PT_DETACH on 5), then — the OS granting PT_ATTACH — succeeds with the
attachment replaced by pid 7. -/
theorem attach_while_attached_counterexample :
    ((DebuggerCore.mk 5 5 [(5, 1407)]).attach 7 true).2.1 = true
  ∧ ((DebuggerCore.mk 5 5 [(5, 1407)]).attach 7 true).1
      = DebuggerCore.mk 7 7 [(7, 0)]
  ∧ ((DebuggerCore.mk 5 5 [(5, 1407)]).attach 7 true).2.2
      = [⟨PtraceOp.PT_DETACH, 5, 0⟩, ⟨PtraceOp.PT_ATTACH, 7, 0⟩] := by
  decide

/-- C5 (amended): attach(pid) is legal from any state: it first detaches
any current target (there is no AlreadyAttached error), then issues
PT_ATTACH; on OS success the principal thread — numerically equal to the
pid — is the sole registry entry and the active thread; on OS failure the
controller is left detached with an empty registry. -/
theorem attach_spec (s : DebuggerCore) (pid : Nat) (ok : Bool)
    (hinv : s.pid_ = 0 → s.threads_ = []) :
    ((s.attach pid ok).2.2 =
      (if s.attached then [⟨PtraceOp.PT_DETACH, s.pid_, 0⟩] else []) ++
        [⟨PtraceOp.PT_ATTACH, pid, 0⟩])
  ∧ (ok = true → (s.attach pid ok).2.1 = true ∧
      (s.attach pid ok).1 = DebuggerCore.mk pid pid [(pid, 0)])
  ∧ (ok = false → (s.attach pid ok).2.1 = false ∧
      (s.attach pid ok).1.pid_ = 0 ∧ (s.attach pid ok).1.threads_ = []) := by
  refine ⟨?_, ?_, ?_⟩
  · by_cases h : s.attached = true
    · cases ok <;> simp [DebuggerCore.attach, DebuggerCore.detach, h]
    · have h' : s.attached = false := by simpa using h
      cases ok <;> simp [DebuggerCore.attach, DebuggerCore.detach, h']
  · intro hok
    subst hok
    exact ⟨rfl, by simp [DebuggerCore.attach, qinsert]⟩
  · intro hok
    subst hok
    exact ⟨rfl, ⟨detach_fst_pid s, detach_fst_threads s hinv⟩⟩

/-- C5 witness: the amended attach behaviour on the controller attached
to pid 5, attaching to pid 7 with the OS granting the request. -/
theorem attach_spec_witness :
    (((DebuggerCore.mk 5 5 [(5, 1407)]).attach 7 true).2.2 =
      (if (DebuggerCore.mk 5 5 [(5, 1407)]).attached then
        [⟨PtraceOp.PT_DETACH, 5, 0⟩] else []) ++
        [⟨PtraceOp.PT_ATTACH, 7, 0⟩])
  ∧ (((DebuggerCore.mk 5 5 [(5, 1407)]).attach 7 true).2.1 = true ∧
      ((DebuggerCore.mk 5 5 [(5, 1407)]).attach 7 true).1
        = DebuggerCore.mk 7 7 [(7, 0)]) := by
  have h := attach_spec (DebuggerCore.mk 5 5 [(5, 1407)]) 7 true
    (by intro hp; exact absurd hp (by decide))
  exact ⟨h.1, h.2.1 rfl⟩

/- ===== C6 ===== -/

/-- C6: on an attached controller, when the timed wait is not a timeout
and reports a positive tid, wait_debug_event — before returning the
classified event, which carries that tid — stores the raw status for the
tid in the registry (inserting it when unknown, leaving every other
entry unchanged) and makes the tid the active thread; on a timeout or a
wait failure (tid ≤ 0) it returns no event and changes nothing. -/
theorem wait_debug_event_spec (s : DebuggerCore) (w : WaitRes)
    (h : s.attached = true) :
    (w = WaitRes.timeout → s.wait_debug_event w = (s, none))
  ∧ (∀ tid status, w = WaitRes.res tid status → tid ≤ 0 →
      s.wait_debug_event w = (s, none))
  ∧ (∀ tid status, w = WaitRes.res tid status → 0 < tid →
      (s.wait_debug_event w).1.active_thread_ = tid.toNat
    ∧ qlookup (s.wait_debug_event w).1.threads_ tid.toNat = some status
    ∧ (∀ t, t ≠ tid.toNat →
        qlookup (s.wait_debug_event w).1.threads_ t = qlookup s.threads_ t)
    ∧ (s.wait_debug_event w).1.pid_ = s.pid_
    ∧ (s.wait_debug_event w).2 = some ⟨status, s.pid_, tid.toNat⟩) := by
  refine ⟨?_, ?_, ?_⟩
  · intro hw
    subst hw
    simp [DebuggerCore.wait_debug_event, h]
  · intro tid status hw htid
    subst hw
    have : ¬ (0 < tid) := by omega
    simp [DebuggerCore.wait_debug_event, h, this]
  · intro tid status hw htid
    subst hw
    refine ⟨?_, ?_, ?_, ?_, ?_⟩ <;>
      simp [DebuggerCore.wait_debug_event, h, htid, DebugEvent.thread,
        qlookup_qinsert_self, qlookup_qinsert_ne]
    intro t ht
    exact qlookup_qinsert_ne s.threads_ tid.toNat t status ht

/-- C6 witness: on the controller attached to pid 7, an event from tid 9
with raw status 1407 makes 9 the active thread, registers (9, 1407)
while keeping thread 7's entry, and returns the event for tid 9; and a
timeout changes nothing. -/
theorem wait_debug_event_spec_witness :
    ((DebuggerCore.mk 7 7 [(7, 100)]).wait_debug_event
        (WaitRes.res 9 1407)).1.active_thread_ = (9 : Int).toNat
  ∧ qlookup ((DebuggerCore.mk 7 7 [(7, 100)]).wait_debug_event
        (WaitRes.res 9 1407)).1.threads_ (9 : Int).toNat = some 1407
  ∧ qlookup ((DebuggerCore.mk 7 7 [(7, 100)]).wait_debug_event
        (WaitRes.res 9 1407)).1.threads_ 7
      = qlookup (DebuggerCore.mk 7 7 [(7, 100)]).threads_ 7
  ∧ (DebuggerCore.mk 7 7 [(7, 100)]).wait_debug_event WaitRes.timeout
      = (DebuggerCore.mk 7 7 [(7, 100)], none) := by
  have h := wait_debug_event_spec (DebuggerCore.mk 7 7 [(7, 100)])
    (WaitRes.res 9 1407) (by decide)
  have h2 := h.2.2 9 1407 rfl (by decide)
  have h3 := wait_debug_event_spec (DebuggerCore.mk 7 7 [(7, 100)])
    WaitRes.timeout (by decide)
  exact ⟨h2.1, h2.2.1, h2.2.2.1 7 (by decide), h3.1 rfl⟩

/- ===== C7 ===== -/

/-- C7: when kvm_openfiles succeeds but kvm_getprocs returns zero
processes (a null result), parent_pid reads through the null result —
the dereference of the parent-pid field is unguarded — instead of
treating the situation as an OsError and returning early; on a non-null
result the dereference yields the parent pid, and on kvm_openfiles
failure the untouched initial value 0 is returned. -/
theorem parent_pid_null_deref :
    parent_pid true none = Deref.nullDeref
  ∧ parent_pid true (some ⟨3, 2⟩) = Deref.ok 2
  ∧ parent_pid false none = Deref.ok 0 := by
  decide

theorem open_fail_detached (s : DebuggerCore) (forkRes waitRes : Option Nat)
    (hinv : s.pid_ = 0 → s.threads_ = []) :
    (s.open_ forkRes waitRes).2 = false →
      (s.open_ forkRes waitRes).1.pid_ = 0 ∧
      (s.open_ forkRes waitRes).1.threads_ = [] := by
  have hd1 := detach_fst_pid s
  have hd2 := detach_fst_threads s hinv
  cases forkRes with
  | none =>
    intro _
    exact ⟨rfl, hd2⟩
  | some p =>
    cases waitRes with
    | none =>
      intro _
      exact ⟨hd1, rfl⟩
    | some st =>
      by_cases hC : WIFSTOPPED st = false ∨ WSTOPSIG st ≠ SIGTRAP
      · have hres : s.open_ (some p) (some st)
            = ((({ (s.detach).1 with threads_ := [] } :
                DebuggerCore).detach).1, false) := by
          simp only [DebuggerCore.open_]
          rw [if_pos hC]
        have hdet := detach_of_pid_zero
          ({ (s.detach).1 with threads_ := [] } : DebuggerCore) hd1
        intro _
        rw [hres, hdet]
        exact ⟨hd1, rfl⟩
      · have hres : s.open_ (some p) (some st)
            = ({ pid_ := p, active_thread_ := p,
                 threads_ := qinsert (qinsert [] p 0) p st }, true) := by
          simp only [DebuggerCore.open_]
          rw [if_neg hC]
        intro habs
        rw [hres] at habs
        simp at habs

/- ===== C10 ===== -/

/-- C10: the controller is attached exactly when the stored pid is
non-zero, and the detached configuration is always empty: the invariant
(pid = 0 → thread registry empty) is preserved by attach, detach, kill,
open, wait_event, resume and step; detach and kill always leave pid 0
with an empty registry; a failed attach and a failed open leave the same
empty detached configuration. -/
theorem controller_detached_invariant (s : DebuggerCore)
    (hinv : s.pid_ = 0 → s.threads_ = []) :
    (s.attached = true ↔ s.pid_ ≠ 0)
  ∧ (∀ p ok, 0 < p →
      ((s.attach p ok).1.pid_ = 0 → (s.attach p ok).1.threads_ = []))
  ∧ ((s.detach).1.pid_ = 0 ∧ (s.detach).1.threads_ = [])
  ∧ ((s.kill).1.pid_ = 0 ∧ (s.kill).1.threads_ = [])
  ∧ (∀ fr wr, (∀ p, fr = some p → 0 < p) →
      ((s.open_ fr wr).1.pid_ = 0 → (s.open_ fr wr).1.threads_ = []))
  ∧ (∀ w, (s.wait_debug_event w).1.pid_ = 0 →
      (s.wait_debug_event w).1.threads_ = [])
  ∧ (∀ est, ((s.resume est).1.pid_ = 0 → (s.resume est).1.threads_ = []) ∧
      ((s.step est).1.pid_ = 0 → (s.step est).1.threads_ = []))
  ∧ (∀ p ok, (s.attach p ok).2.1 = false →
      (s.attach p ok).1.pid_ = 0 ∧ (s.attach p ok).1.threads_ = [])
  ∧ (∀ fr wr, (s.open_ fr wr).2 = false →
      (s.open_ fr wr).1.pid_ = 0 ∧ (s.open_ fr wr).1.threads_ = []) := by
  have hkill1 : (s.kill).1.pid_ = 0 := by
    by_cases h : s.attached = true
    · simp [DebuggerCore.kill, h]
    · have h' : s.attached = false := by simpa using h
      have hp : s.pid_ = 0 := by simpa [DebuggerCore.attached] using h'
      simp [DebuggerCore.kill, h', hp]
  have hkill2 : (s.kill).1.threads_ = [] := by
    by_cases h : s.attached = true
    · simp [DebuggerCore.kill, h]
    · have h' : s.attached = false := by simpa using h
      have hp : s.pid_ = 0 := by simpa [DebuggerCore.attached] using h'
      simp [DebuggerCore.kill, h', hinv hp]
  refine ⟨by simp [DebuggerCore.attached], ?_, ⟨detach_fst_pid s,
    detach_fst_threads s hinv⟩, ⟨hkill1, hkill2⟩, ?_, ?_, ?_, ?_, ?_⟩
  · intro p ok hp
    cases ok with
    | true =>
      intro habs
      have hp0 : p = 0 := by
        simpa [DebuggerCore.attach] using habs
      exact absurd hp0 (Nat.pos_iff_ne_zero.mp hp)
    | false =>
      intro _
      exact ((attach_spec s p false hinv).2.2 rfl).2.2
  · intro fr wr hfr
    rcases Bool.eq_false_or_eq_true (s.open_ fr wr).2 with h | h
    · rcases ((open_spec s fr wr hinv hfr).1.mp h) with ⟨p, st, hp, hst, _, _⟩
      have hpe := ((open_spec s fr wr hinv hfr).2.1 p st hp hst h).2.1
      intro habs
      rw [hpe] at habs
      exact absurd habs (Nat.pos_iff_ne_zero.mp (hfr p hp))
    · intro _
      exact (open_fail_detached s fr wr hinv h).2
  · intro w
    by_cases h : s.attached = true
    · have hp : s.pid_ ≠ 0 := by simpa [DebuggerCore.attached] using h
      cases w with
      | timeout =>
        intro habs
        exact absurd (by simpa [DebuggerCore.wait_debug_event, h] using habs) hp
      | res tid status =>
        by_cases htid : 0 < tid
        · intro habs
          have : s.pid_ = 0 := by
            simpa [DebuggerCore.wait_debug_event, h, htid] using habs
          exact absurd this hp
        · intro habs
          have : s.pid_ = 0 := by
            simpa [DebuggerCore.wait_debug_event, h, htid] using habs
          exact absurd this hp
    · have h' : s.attached = false := by simpa using h
      simpa [DebuggerCore.wait_debug_event, h'] using hinv
  · intro est
    by_cases h : s.attached = true
    · have hp : s.pid_ ≠ 0 := by simpa [DebuggerCore.attached] using h
      cases est <;> constructor <;> intro habs <;>
        exact absurd (by
          simpa [DebuggerCore.resume, DebuggerCore.step, h] using habs) hp
    · have h' : s.attached = false := by simpa using h
      constructor <;>
        simpa [DebuggerCore.resume, DebuggerCore.step, h'] using hinv
  · intro p ok habs
    cases ok with
    | true =>
      simp [DebuggerCore.attach] at habs
    | false =>
      exact ((attach_spec s p false hinv).2.2 rfl).2
  · intro fr wr habs
    exact open_fail_detached s fr wr hinv habs

/- ===== C8 ===== -/

theorem foldr_min_le_init (l : List Nat) (b : Nat) : l.foldr min b ≤ b := by
  induction l with
  | nil => exact le_refl b
  | cons x xs ih => exact le_trans (min_le_right x _) ih

theorem foldr_min_le_mem (l : List Nat) (b t : Nat) (h : t ∈ l) :
    l.foldr min b ≤ t := by
  induction l with
  | nil => cases h
  | cons x xs ih =>
    rcases List.mem_cons.mp h with rfl | h'
    · exact min_le_left _ _
    · exact le_trans (min_le_right _ _) (ih h')

theorem le_foldr_min (l : List Nat) (b c : Nat) (hb : c ≤ b)
    (h : ∀ t ∈ l, c ≤ t) : c ≤ l.foldr min b := by
  induction l with
  | nil => exact hb
  | cons x xs ih =>
    exact le_min (h x (by simp)) (ih (fun t ht => h t (by simp [ht])))

theorem truncators_sound (f : Function) (fs : List Function) (t : Nat)
    (h : t ∈ truncators f fs) :
    ∃ g, g ∈ fs ∧ g.entry = t ∧ f.entry < g.entry ∧ g.entry < f.end_ ∧
      ¬(g.type = FunctionType.Thunk ∧ g.end_ ≤ f.end_) := by
  rcases List.mem_map.mp h with ⟨g, hg, rfl⟩
  rcases List.mem_filter.mp hg with ⟨hgfs, hp⟩
  have hprop := of_decide_eq_true hp
  exact ⟨g, hgfs, rfl, hprop.1, hprop.2.1, hprop.2.2⟩

theorem truncators_complete (f : Function) (fs : List Function)
    (g : Function) (hg : g ∈ fs) (h1 : f.entry < g.entry)
    (h2 : g.entry < f.end_)
    (h3 : ¬(g.type = FunctionType.Thunk ∧ g.end_ ≤ f.end_)) :
    g.entry ∈ truncators f fs := by
  refine List.mem_map.mpr ⟨g, ?_, rfl⟩
  exact List.mem_filter.mpr ⟨hg, decide_eq_true ⟨h1, h2, h3⟩⟩

theorem newEnd_le_end (f : Function) (fs : List Function) :
    newEnd f fs ≤ f.end_ :=
  foldr_min_le_init _ _

theorem newEnd_le_truncator (f : Function) (fs : List Function) (t : Nat)
    (h : t ∈ truncators f fs) : newEnd f fs ≤ t :=
  foldr_min_le_mem _ _ _ h

theorem newEnd_le_of_cond (f : Function) (fs : List Function) (g : Function)
    (hg : g ∈ fs) (h1 : f.entry < g.entry) (h2 : g.entry < f.end_)
    (h3 : ¬(g.type = FunctionType.Thunk ∧ g.end_ ≤ f.end_)) :
    newEnd f fs ≤ g.entry :=
  newEnd_le_truncator f fs _ (truncators_complete f fs g hg h1 h2 h3)

theorem newEnd_pair (fs : List Function) (f g : Function) (hg : g ∈ fs)
    (hfg : f.entry < g.entry) :
    newEnd f fs ≤ g.entry ∨
      (g.type = FunctionType.Thunk ∧ newEnd g fs ≤ newEnd f fs) := by
  by_cases hle : newEnd f fs ≤ g.entry
  · exact Or.inl hle
  push_neg at hle
  right
  have hgend : g.entry < f.end_ := lt_of_lt_of_le hle (newEnd_le_end f fs)
  have hexc : g.type = FunctionType.Thunk ∧ g.end_ ≤ f.end_ := by
    by_contra hx
    exact absurd (newEnd_le_of_cond f fs g hg hfg hgend hx) (not_le.mpr hle)
  refine ⟨hexc.1, ?_⟩
  apply le_foldr_min
  · exact le_trans (foldr_min_le_init _ _) hexc.2
  · intro t ht
    rcases truncators_sound f fs t ht with ⟨h3, hh3, rfl, hf3, h3f, hne⟩
    have hgh3 : g.entry < h3.entry :=
      lt_of_lt_of_le hle (newEnd_le_truncator f fs _ ht)
    by_cases hbe : g.end_ ≤ h3.entry
    · exact le_trans (foldr_min_le_init _ _) hbe
    · push_neg at hbe
      refine newEnd_le_of_cond g fs h3 hh3 hgh3 hbe ?_
      rintro ⟨ht3, hle3⟩
      exact hne ⟨ht3, le_trans hle3 hexc.2⟩

/-- C8: fix_overlaps preserves the (pairwise-distinct) entry keys, and in
its result any two functions F1, F2 with F1.entry < F2.entry satisfy
either F1.end ≤ F2.entry or F2 is of type Thunk entirely contained in F1;
any non-thunk later function whose entry lies strictly inside a
function's extent forces that function's resolved end down to (at most)
the intruding entry; and the keep-branch: a function every one of whose
overlapping later functions is a thunk entirely contained in it is kept
with its end unchanged — contained thunks never cause truncation. -/
theorem fix_overlaps_spec (fs : List Function)
    (hsorted : fs.Pairwise (fun a b => a.entry < b.entry)) :
    ((fix_overlaps fs).map Function.entry = fs.map Function.entry)
  ∧ (fix_overlaps fs).Pairwise (fun F1 F2 =>
      F1.end_ ≤ F2.entry ∨
        (F2.type = FunctionType.Thunk ∧ F1.entry ≤ F2.entry ∧
          F2.end_ ≤ F1.end_))
  ∧ (∀ f g, f ∈ fs → g ∈ fs → f.entry < g.entry → g.entry < f.end_ →
      g.type ≠ FunctionType.Thunk → newEnd f fs ≤ g.entry)
  ∧ (∀ f, f ∈ fs →
      (∀ g, g ∈ fs → f.entry < g.entry → g.entry < f.end_ →
        g.type = FunctionType.Thunk ∧ g.end_ ≤ f.end_) →
      newEnd f fs = f.end_) := by
  refine ⟨?_, ?_, ?_, ?_⟩
  · rw [fix_overlaps, List.map_map]
    exact List.map_congr_left (fun a _ => rfl)
  · rw [fix_overlaps, List.pairwise_map]
    rw [List.pairwise_iff_getElem] at hsorted ⊢
    intro i j hi hj hij
    have hlt := hsorted i j hi hj hij
    rcases newEnd_pair fs (fs[i]) (fs[j]) (fs.getElem_mem hj) hlt with h | h
    · exact Or.inl h
    · exact Or.inr ⟨h.1, le_of_lt hlt, h.2⟩
  · intro f g hf hg h1 h2 hne
    exact newEnd_le_of_cond f fs g hg h1 h2 (fun hx => hne hx.1)
  · intro f _ hkeep
    refine le_antisymm (newEnd_le_end f fs) ?_
    show f.end_ ≤ (truncators f fs).foldr min f.end_
    refine le_foldr_min _ _ _ (le_refl _) ?_
    intro t ht
    rcases truncators_sound f fs t ht with ⟨g, hg, rfl, h1, h2, h3⟩
    exact absurd (hkeep g hg h1 h2) h3

/-- C8 witness: the spec's overlap scenario — F1 = [0x1000, 0x1040) of
type Standard and the thunk F2 = [0x1020, 0x1030) contained in it — where
both functions are kept with F1's end unchanged at 0x1040, so fix_overlaps
returns the scenario untouched. -/
theorem fix_overlaps_spec_witness :
    ((fix_overlaps overlapScenario).map Function.entry =
      overlapScenario.map Function.entry)
  ∧ (fix_overlaps overlapScenario).Pairwise (fun F1 F2 =>
      F1.end_ ≤ F2.entry ∨
        (F2.type = FunctionType.Thunk ∧ F1.entry ≤ F2.entry ∧
          F2.end_ ≤ F1.end_))
  ∧ (∀ f g, f ∈ overlapScenario → g ∈ overlapScenario →
      f.entry < g.entry → g.entry < f.end_ →
      g.type ≠ FunctionType.Thunk →
      newEnd f overlapScenario ≤ g.entry)
  ∧ newEnd ⟨4096, 4160, FunctionType.Standard, 0⟩ overlapScenario = 4160
  ∧ fix_overlaps overlapScenario = overlapScenario := by
  have h := fix_overlaps_spec overlapScenario (by simp [overlapScenario])
  refine ⟨h.1, h.2.1, h.2.2.1, ?_, by decide⟩
  exact h.2.2.2 ⟨4096, 4160, FunctionType.Standard, 0⟩
    (by simp [overlapScenario]) (by decide)

/- ===== C9 ===== -/

/-- C9: back-to-back analyses of a region with unchanged bytes return
identical function maps for any run states; when the debuggee is stopped
during the first call, the second call hits the cache (stored fingerprint
equal to the fresh one and stored fuzzy flag clear) and serves the cached
map; and an entry recorded with fuzzy = true is never served from the
cache — analyze recomputes and returns the fresh analysis instead. -/
theorem analyze_cache_spec (A : List Nat → List Function)
    (cache : List (Nat × RegionInfo)) (rs : Nat) (bytes : List Nat) :
    (∀ run1 run2,
      (analyze A (analyze A cache rs bytes run1).2.2 rs bytes run2).1 =
        (analyze A cache rs bytes run1).1)
  ∧ ((analyze A (analyze A cache rs bytes false).2.2 rs bytes false).2.1 =
      true)
  ∧ (∀ run info, qlookup cache rs = some info → info.fuzzy = true →
      (analyze A cache rs bytes run).2.1 = false ∧
      (analyze A cache rs bytes run).1 = A bytes) := by
  refine ⟨?_, ?_, ?_⟩
  · intro run1 run2
    rcases hq : qlookup cache rs with _ | info
    · cases run1 <;> simp [analyze, hq, qlookup_qinsert_self]
    · by_cases hc : info.md5 = md5_region bytes ∧ info.fuzzy = false
      · simp [analyze, hq, hc]
      · cases run1 <;> simp [analyze, hq, hc, qlookup_qinsert_self]
  · rcases hq : qlookup cache rs with _ | info
    · simp [analyze, hq, qlookup_qinsert_self]
    · by_cases hc : info.md5 = md5_region bytes ∧ info.fuzzy = false
      · simp [analyze, hq, hc]
      · simp [analyze, hq, hc, qlookup_qinsert_self]
  · intro run info hq hfuzzy
    have hc : ¬ (info.md5 = md5_region bytes ∧ info.fuzzy = false) := by
      rintro ⟨_, hff⟩
      rw [hfuzzy] at hff
      cases hff
    constructor <;> simp [analyze, hq, hc]

/-- C9 witness: with the trivial analysis, a cache holding a fuzzy entry
for region start 0 with a matching fingerprint of bytes [1, 2] is not
served (analyze recomputes), and after a first non-fuzzy analysis the
second back-to-back call hits the cache. -/
theorem analyze_cache_spec_witness :
    (analyze (fun _ => [])
      [(0, ⟨[⟨0, 0, FunctionType.Unknown, 0⟩], md5_region [1, 2], true⟩)]
      0 [1, 2] false).2.1 = false
  ∧ (analyze (fun _ => [])
      [(0, ⟨[⟨0, 0, FunctionType.Unknown, 0⟩], md5_region [1, 2], true⟩)]
      0 [1, 2] false).1 = (fun _ => ([] : List Function)) [1, 2]
  ∧ (analyze (fun _ => [])
      (analyze (fun _ => [])
        [(0, ⟨[⟨0, 0, FunctionType.Unknown, 0⟩], md5_region [1, 2], true⟩)]
        0 [1, 2] false).2.2 0 [1, 2] false).2.1 = true := by
  have h := analyze_cache_spec (fun _ => [])
    [(0, ⟨[⟨0, 0, FunctionType.Unknown, 0⟩], md5_region [1, 2], true⟩)]
    0 [1, 2]
  have h3 := h.2.2 false ⟨[⟨0, 0, FunctionType.Unknown, 0⟩],
    md5_region [1, 2], true⟩ (by simp [qlookup]) rfl
  exact ⟨h3.1, h3.2, h.2.1⟩

/-- C10 witness: the invariant consequences at the controller attached to
pid 5 with registry [(5, 1407)]: detach and kill leave pid 0 with an
empty registry, and a failed attach to pid 9 leaves the same empty
detached configuration. -/
theorem controller_detached_invariant_witness :
    ((DebuggerCore.mk 5 5 [(5, 1407)]).detach).1.pid_ = 0
  ∧ ((DebuggerCore.mk 5 5 [(5, 1407)]).detach).1.threads_ = []
  ∧ ((DebuggerCore.mk 5 5 [(5, 1407)]).kill).1.pid_ = 0
  ∧ ((DebuggerCore.mk 5 5 [(5, 1407)]).kill).1.threads_ = []
  ∧ ((DebuggerCore.mk 5 5 [(5, 1407)]).attach 9 false).1.pid_ = 0
  ∧ ((DebuggerCore.mk 5 5 [(5, 1407)]).attach 9 false).1.threads_ = [] := by
  have h := controller_detached_invariant (DebuggerCore.mk 5 5 [(5, 1407)])
    (by intro hp; exact absurd hp (by decide))
  have ha := h.2.2.2.2.2.2.2.1 9 false rfl
  exact ⟨h.2.2.1.1, h.2.2.1.2, h.2.2.2.1.1, h.2.2.2.1.2, ha.1, ha.2⟩

end Edb
